import Mathlib

/-
Verification of the WeatherData processing pipeline.

The Python sources are shallowly embedded below:
  - scripts/processing/process_weather.py : band resolution, unit conversion,
    reprojection fallback, COG creation, batch processing
  - config/config_manager.py : the variable catalog and its validation
  - scripts/processing/generate_tiles.py : SRS repair and tile organization

Strings are modelled as lists of characters so that the substring tests used
throughout the Python code are directly executable and decidable.
-/

set_option autoImplicit false

/-- Character strings, modelled as lists of characters. -/
abbrev Str := List Char

/-- Lowercase a string, as the Python method lower does on ASCII data. -/
def lowerStr (s : Str) : Str := s.map Char.toLower

/-- Uppercase a string, as the Python method upper does on ASCII data. -/
def upperStr (s : Str) : Str := s.map Char.toUpper

/-- Whether the needle is an initial segment of the haystack. -/
def leadsWith : Str → Str → Bool
  | [], _ => true
  | _ :: _, [] => false
  | a :: as, b :: bs => a == b && leadsWith as bs

/-- The Python substring test (needle in haystack). -/
def containsSub (needle : Str) : Str → Bool
  | [] => needle.isEmpty
  | c :: t => leadsWith needle (c :: t) || containsSub needle t

/-- The whitespace characters recognized by the Python methods strip and by
regex \s on ASCII data. -/
def isPySpace (c : Char) : Bool :=
  c == ' ' || c == '\t' || c == '\n' || c == '\r'

/-- Remove trailing characters satisfying the predicate. -/
def dropTrailing (p : Char → Bool) (s : Str) : Str :=
  (s.reverse.dropWhile p).reverse

/-- The Python method strip: remove leading and trailing whitespace. -/
def stripStr (s : Str) : Str :=
  dropTrailing isPySpace (s.dropWhile isPySpace)

/-- Position-indexed list lookup; listNth l n is the element at offset n. -/
def listNth {α : Type} : List α → Nat → Option α
  | [], _ => none
  | a :: _, 0 => some a
  | _ :: rest, n + 1 => listNth rest n

/-- The last element of a list, if any. -/
def listLast {α : Type} : List α → Option α
  | [] => none
  | [a] => some a
  | _ :: b :: rest => listLast (b :: rest)

/-
Band Resolver: find_band_by_search_string, process_weather.py lines 89-173.
-/

/-- One band of a GRIB2 file as enumerated by list_grib_bands
(process_weather.py lines 58-86): the band description, the GRIB_ELEMENT
metadata item and the GRIB_SHORT_NAME metadata item. -/
structure GribBand where
  desc : Str
  element : Str
  shortName : Str
deriving DecidableEq

/-- Split a string at the first colon, as the Python call split with limit 1
does; none when the string holds no colon. -/
def splitAtColon : Str → Option (Str × Str)
  | [] => none
  | c :: rest =>
    if c = ':' then some ([], rest)
    else (splitAtColon rest).map (fun p => (c :: p.1, p.2))

/-- Parse a search string into an element token and an optional level token
(process_weather.py lines 101-108). -/
def parseSearch (s : Str) : Str × Option Str :=
  match splitAtColon s with
  | some (e, l) => (stripStr e, some (stripStr l))
  | none => (stripStr s, none)

/-- The regex search for digits followed by optional whitespace and the letter
m (process_weather.py line 157), returning the digit group of the leftmost
match.  For this pattern the greedy scan agrees with regex backtracking. -/
def extractMeterNum : Str → Option Str
  | [] => none
  | c :: rest =>
    if c.isDigit then
      let ds := (c :: rest).takeWhile Char.isDigit
      let afterDigits := (c :: rest).dropWhile Char.isDigit
      let afterSpaces := afterDigits.dropWhile isPySpace
      match afterSpaces with
      | 'm' :: _ => some ds
      | _ => extractMeterNum rest
    else extractMeterNum rest

/-- The lowercase token entire atmosphere tested by the level branches. -/
def tokEntireAtmosphere : Str := ("entire atmosphere").toList

/-- The lowercase token eatm tested by the level branches. -/
def tokEatm : Str := ("eatm").toList

/-- The lowercase token surface tested by the level branches. -/
def tokSurface : Str := ("surface").toList

/-- The lowercase token sfc tested by the level branches. -/
def tokSfc : Str := ("sfc").toList

/-- The token of a space followed by the letter m, tested with the leading
space precisely so that the word atmosphere cannot trigger the meter
branch (process_weather.py line 153). -/
def tokMeterSpace : Str := (" m").toList

/-- The token meter tested by the meter branch. -/
def tokMeterWord : Str := ("meter").toList

/-- The height-above-ground suffix tag tested against GRIB_SHORT_NAME. -/
def tokHtgl : Str := ("-htgl").toList

/-- The bracketed meter unit tested against the band description. -/
def tokBracketM : Str := ("[m]").toList

/-- The level-matching branches of find_band_by_search_string
(process_weather.py lines 132-170) for one band: entire atmosphere is checked
first, then surface, then a numeric height followed by the meter unit, and
otherwise substring containment of the level in the description. -/
def bandMatchesLevel (lvl : Str) (b : GribBand) : Bool :=
  let l := lowerStr lvl
  let d := lowerStr b.desc
  let s := lowerStr b.shortName
  if containsSub tokEntireAtmosphere l || containsSub tokEatm l then
    containsSub tokEatm s || containsSub tokEntireAtmosphere d
  else if containsSub tokSurface l || containsSub tokSfc l then
    containsSub tokSfc s || containsSub tokSurface d
  else if containsSub tokMeterSpace l || containsSub tokMeterWord l then
    match extractMeterNum l with
    | some n => containsSub (n ++ tokHtgl) s || containsSub (n ++ tokBracketM) d
    | none => false
  else
    containsSub l d

/-- The band loop of find_band_by_search_string (process_weather.py lines
114-173): bands whose element does not match are skipped; with no level token
(or with the empty level token, falsy in Python) the first element match
wins; otherwise the level branches decide.  The index argument carries the
one-based band number of the head band. -/
def findLoop (elem : Str) : Option Str → Nat → List GribBand → Option Nat
  | _, _, [] => none
  | none, idx, b :: rest =>
    if upperStr elem = upperStr b.element then some idx
    else findLoop elem none (idx + 1) rest
  | some l, idx, b :: rest =>
    if upperStr elem = upperStr b.element then
      if l = [] then some idx
      else if bandMatchesLevel l b then some idx
      else findLoop elem (some l) (idx + 1) rest
    else findLoop elem (some l) (idx + 1) rest

/-- find_band_by_search_string (process_weather.py lines 89-173): parse the
search string, then scan the bands in order; returns the one-based band
number of the first match, none when no band matches. -/
def findBandBySearchString (bands : List GribBand) (s : Str) : Option Nat :=
  let p := parseSearch s
  findLoop p.1 p.2 1 bands

/-
Variable Catalog: config/config_manager.py.
-/

/-- A conversion formula from the configuration file, as the arithmetic
expression grammar over the single identifier value that the catalog formulas
use (for example value - 273.15 for kelvin_to_celsius). -/
inductive ConvExpr where
  | num : ℚ → ConvExpr
  | valueVar : ConvExpr
  | add : ConvExpr → ConvExpr → ConvExpr
  | sub : ConvExpr → ConvExpr → ConvExpr
  | mul : ConvExpr → ConvExpr → ConvExpr
  | div : ConvExpr → ConvExpr → ConvExpr
deriving DecidableEq

/-- Arithmetic evaluation of a conversion formula at a value. -/
def evalConv : ConvExpr → ℚ → ℚ
  | ConvExpr.num q, _ => q
  | ConvExpr.valueVar, v => v
  | ConvExpr.add a b, v => evalConv a v + evalConv b v
  | ConvExpr.sub a b, v => evalConv a v - evalConv b v
  | ConvExpr.mul a b, v => evalConv a v * evalConv b v
  | ConvExpr.div a b, v => evalConv a v / evalConv b v

/-- One entry of the variables mapping of the catalog file.  Each field is the
value of the same-named key of the per-variable dictionary; none models an
absent key. -/
structure VarEntry where
  grib_search : Option Str
  display_name : Option Str
  units_source : Option Str
  units_display : Option Str
  color_ramp : Option Str
  conversion : Option Str
  enabled : Option Bool
  priority : Option Int
deriving DecidableEq

/-- The loaded catalog held by VariableConfig (config_manager.py).  hasModel
and hasProduct record presence of the model and product keys; variablesKey is
the value of the variables key (none when the key is absent); colorRamps
lists the names defined under color_ramps; conversions maps conversion names
to their formula (none inside models a conversion entry without a formula
key). -/
structure WeatherConfig where
  hasModel : Bool
  hasProduct : Bool
  variablesKey : Option (List (Str × VarEntry))
  colorRamps : List Str
  conversions : List (Str × Option ConvExpr)

/-- config.get with the variables key and an empty-dict default
(config_manager.py line 51 and elsewhere). -/
def variablesOf (c : WeatherConfig) : List (Str × VarEntry) :=
  c.variablesKey.getD []

/-- get_enabled_variables (config_manager.py lines 44-56): keep the variables
whose enabled value is present and true. -/
def getEnabledVariables (c : WeatherConfig) : List (Str × VarEntry) :=
  (variablesOf c).filter (fun p =>
    match p.2.enabled with
    | some true => true
    | _ => false)

/-- get_variables_by_priority (config_manager.py lines 58-77): all enabled
variables when the priority filter is none, otherwise the enabled variables
whose priority equals the filter. -/
def getVariablesByPriority (c : WeatherConfig) (pr : Option Int) : List (Str × VarEntry) :=
  match pr with
  | none => getEnabledVariables c
  | some p => (getEnabledVariables c).filter (fun q => q.2.priority == some p)

/-- Option-valued traversal used to model a Python list comprehension that
raises on a missing key: none as soon as one element yields none. -/
def collectSome {α β : Type} (f : α → Option β) : List α → Option (List β)
  | [] => some []
  | x :: rest =>
    match f x, collectSome f rest with
    | some y, some ys => some (y :: ys)
    | _, _ => none

/-- get_grib_search_strings (config_manager.py lines 91-99): the grib_search
values of the enabled variables; none models the KeyError raised when an
enabled variable lacks the grib_search key. -/
def getGribSearchStrings (c : WeatherConfig) : Option (List Str) :=
  collectSome (fun p => p.2.grib_search) (getEnabledVariables c)

/-- apply_conversion (config_manager.py lines 125-153) at the level of one
rational value: look the conversion up, then evaluate its formula; none
models the ValueError raised for a missing conversion or a missing
formula. -/
def applyConversion (cfg : WeatherConfig) (v : ℚ) (cname : Str) : Option ℚ :=
  match List.lookup cname cfg.conversions with
  | none => none
  | some none => none
  | some (some e) => some (evalConv e v)

/-- The ASCII single-quote character used inside the validation messages. -/
def squote : Char := Char.ofNat 39

/-- The message for a variable missing a required key
(config_manager.py line 260). -/
def msgMissingVarKey (name key : Str) : Str :=
  ("Variable ").toList ++ [squote] ++ name ++ [squote]
    ++ (" missing required key: ").toList ++ key

/-- The message for a reference to an undefined color ramp
(config_manager.py line 266). -/
def msgUndefRamp (name ramp : Str) : Str :=
  ("Variable ").toList ++ [squote] ++ name ++ [squote]
    ++ (" references undefined color ramp: ").toList ++ ramp

/-- The message for a reference to an undefined conversion
(config_manager.py line 272). -/
def msgUndefConv (name conv : Str) : Str :=
  ("Variable ").toList ++ [squote] ++ name ++ [squote]
    ++ (" references undefined conversion: ").toList ++ conv

/-- The required top-level key checks of validate
(config_manager.py lines 244-248). -/
def requiredKeyIssues (c : WeatherConfig) : List Str :=
  (if c.hasModel then [] else [("Missing required key: model").toList])
    ++ (if c.hasProduct then [] else [("Missing required key: product").toList])
    ++ (if c.variablesKey.isSome then [] else [("Missing required key: variables").toList])

/-- The required per-variable field checks of validate
(config_manager.py lines 256-260). -/
def varRequiredFieldIssues (name : Str) (v : VarEntry) : List Str :=
  (if v.grib_search.isSome then [] else [msgMissingVarKey name ("grib_search").toList])
    ++ (if v.display_name.isSome then [] else [msgMissingVarKey name ("display_name").toList])
    ++ (if v.units_source.isSome then [] else [msgMissingVarKey name ("units_source").toList])
    ++ (if v.units_display.isSome then [] else [msgMissingVarKey name ("units_display").toList])

/-- The color-ramp reference check of validate (config_manager.py lines
262-266); an absent or empty ramp name is skipped by the truthiness test. -/
def rampIssue (c : WeatherConfig) (name : Str) (v : VarEntry) : List Str :=
  match v.color_ramp with
  | none => []
  | some r =>
    if r = [] then []
    else if r ∈ c.colorRamps then [] else [msgUndefRamp name r]

/-- The conversion reference check of validate (config_manager.py lines
268-272). -/
def convIssue (c : WeatherConfig) (name : Str) (v : VarEntry) : List Str :=
  match v.conversion with
  | none => []
  | some cv =>
    if cv = [] then []
    else if cv ∈ c.conversions.map Prod.fst then [] else [msgUndefConv name cv]

/-- All issues contributed by one variable, in the order the loop body of
validate appends them. -/
def perVarIssues (c : WeatherConfig) (p : Str × VarEntry) : List Str :=
  varRequiredFieldIssues p.1 p.2 ++ rampIssue c p.1 p.2 ++ convIssue c p.1 p.2

/-- The issues of all variables in iteration order. -/
def varIssuesList (c : WeatherConfig) (l : List (Str × VarEntry)) : List Str :=
  l.foldr (fun p acc => perVarIssues c p ++ acc) []

/-- validate (config_manager.py lines 235-274): required top-level keys, the
empty-variables check, then the per-variable checks, all collected into one
list in a single pass.  The function is total: it never raises. -/
def validate (c : WeatherConfig) : List Str :=
  requiredKeyIssues c
    ++ (if variablesOf c = [] then [("No variables defined").toList] else [])
    ++ varIssuesList c (variablesOf c)

/-
Unit Converter: apply_unit_conversion, process_weather.py lines 255-315.
-/

/-- The in-memory grid extracted from one band (an xarray DataArray in the
source): the sample values, the optional nodata sentinel, and the GRIB_UNIT
metadata attribute (the empty string models an absent attribute, matching
attrs.get with an empty default).  Samples are modelled as rationals; the
grids considered here carry no NaN samples. -/
structure DataArray where
  values : List ℚ
  nodata : Option ℚ
  gribUnit : Str
deriving DecidableEq

/-- The validity mask of apply_unit_conversion (process_weather.py lines
296-300): a sample is valid when it differs from the nodata sentinel; with no
sentinel every (non-NaN, hence in this model every) sample is valid. -/
def validSample (da : DataArray) (x : ℚ) : Bool :=
  match da.nodata with
  | some nd => decide (x ≠ nd)
  | none => true

/-- The conversion name kelvin_to_celsius. -/
def tokKelvinToCelsius : Str := ("kelvin_to_celsius").toList

/-- The conversion name kelvin_to_fahrenheit. -/
def tokKelvinToFahrenheit : Str := ("kelvin_to_fahrenheit").toList

/-- The bracketed Celsius unit tag tested against GRIB_UNIT. -/
def tokCelsiusTag : Str := ("[C]").toList

/-- The bracketed Fahrenheit unit tag tested against GRIB_UNIT. -/
def tokFahrenheitTag : Str := ("[F]").toList

/-- apply_unit_conversion (process_weather.py lines 255-315).  A falsy
conversion name returns the grid unchanged; a grid whose GRIB_UNIT already
tags the target units of the two known temperature conversions is returned
unchanged (an empty GRIB_UNIT skips these checks in the source, equivalently
here no nonempty tag is a substring of the empty string); otherwise the
formula is applied to every valid sample.  The GRIB_UNIT attribute is
preserved by the copy and never rewritten.  none models a raised exception:
a failing formula lookup or evaluation, or the ValueError raised at line 312
when the valid mask is empty and min is taken over an empty selection. -/
def applyUnitConversion (da : DataArray) (conversionName : Option Str)
    (cfg : WeatherConfig) : Option DataArray :=
  match conversionName with
  | none => some da
  | some cname =>
    if cname = [] then some da
    else if cname = tokKelvinToCelsius
        ∧ containsSub tokCelsiusTag da.gribUnit = true then some da
    else if cname = tokKelvinToFahrenheit
        ∧ containsSub tokFahrenheitTag da.gribUnit = true then some da
    else if da.values.any (validSample da) then
      match collectSome
          (fun x => if validSample da x then applyConversion cfg x cname else some x)
          da.values with
      | some newVals => some { da with values := newVals }
      | none => none
    else none

/-
Raster Transformer, fallback path: reproject_to_web_mercator,
process_weather.py lines 362-405.
-/

/-- The step of the fallback branch at which an exception is raised; none
models the run with no failure.  The three steps are the body of the inner
try block: writing the source grid to the source temp file, the external warp
invocation, and reading the warped result back. -/
inductive WarpFailure where
  | duringWriteSource
  | duringWarp
  | duringReadBack
deriving DecidableEq

/-- Presence on disk of the two temporary files of the fallback branch. -/
structure TmpFiles where
  srcOnDisk : Bool
  dstOnDisk : Bool
deriving DecidableEq

/-- The handler of the inner except block (process_weather.py lines 398-405):
unlink each temporary file that exists, then re-raise.  Whichever of the two
files exist beforehand, none exists afterwards. -/
def warpCleanup (s : TmpFiles) : TmpFiles :=
  { s with srcOnDisk := false, dstOnDisk := false }

/-- The fallback branch of reproject_to_web_mercator (process_weather.py
lines 362-405).  The two NamedTemporaryFile blocks with delete set to False
create both files on disk; the try block writes the source, warps, and reads
back; on success both files are unlinked, on failure the except handler
unlinks both and re-raises.  Returns the temp-file state at function exit and
whether the call returned normally. -/
def fallbackReproject (failAt : Option WarpFailure) : TmpFiles × Bool :=
  let s0 : TmpFiles := { srcOnDisk := true, dstOnDisk := true }
  if failAt = some WarpFailure.duringWriteSource then (warpCleanup s0, false)
  else if failAt = some WarpFailure.duringWarp then (warpCleanup s0, false)
  else if failAt = some WarpFailure.duringReadBack then (warpCleanup s0, false)
  else ({ s0 with srcOnDisk := false, dstOnDisk := false }, true)

/-
Raster Transformer, COG creation: create_cog, process_weather.py lines
412-497.
-/

/-- What a path holds: nothing, a partially written file, or a completely
written file. -/
inductive FileContent where
  | absent
  | halfWritten
  | complete
deriving DecidableEq

/-- The step of create_cog at which an exception is raised; none models the
run with no failure. -/
inductive CogFailure where
  | duringTiledWrite
  | duringOverviews
  | duringTranslate
deriving DecidableEq

/-- The contents of the final output path and of the side path (the temp file
output_path.with_suffix of tmp tif) during create_cog. -/
structure CogFs where
  finalPath : FileContent
  sidePath : FileContent
deriving DecidableEq

/-- The except handler of create_cog (process_weather.py lines 493-497):
unlink the side file if it exists; the final path is not touched. -/
def cogCleanup (s : CogFs) : CogFs :=
  { s with sidePath := FileContent.absent }

/-- create_cog (process_weather.py lines 412-497).  The tiled raster is
written to the side path and overviews are built there; gdal.Translate then
produces the COG by writing directly at the final output path, and the side
file is unlinked.  A failure while the tiled write or the overview build runs
touches only the side path; a failure while the translate runs leaves the
partially written file at the final path, since the except handler removes
only the side file.  Returns the filesystem state at exit and the boolean
result of the function. -/
def createCogRun (failAt : Option CogFailure) : CogFs × Bool :=
  let s0 : CogFs := { finalPath := FileContent.absent, sidePath := FileContent.absent }
  if failAt = some CogFailure.duringTiledWrite then
    (cogCleanup { s0 with sidePath := FileContent.halfWritten }, false)
  else
    let s1 := { s0 with sidePath := FileContent.complete }
    if failAt = some CogFailure.duringOverviews then (cogCleanup s1, false)
    else if failAt = some CogFailure.duringTranslate then
      (cogCleanup { s1 with finalPath := FileContent.halfWritten }, false)
    else
      let s2 := { s1 with finalPath := FileContent.complete }
      ({ s2 with sidePath := FileContent.absent }, true)

/-
Batch processing: process_grib_file, process_weather.py lines 579-647.
-/

/-- The outcome of processing one variable, abstracting process_variable
(which performs the file work): it returned an output path, it returned None,
or it raised an exception with a message. -/
inductive VarOutcome where
  | made : Str → VarOutcome
  | cameBackNone : VarOutcome
  | raisedError : Str → VarOutcome
deriving DecidableEq

/-- The per-variable loop of process_grib_file (process_weather.py lines
622-647): each variable is attempted inside a try block; a returned path is
recorded in the results, a None return logs a warning naming the variable,
and a raised exception is caught and logs an error naming the variable.
Returns the results mapping and the failure log lines, both in loop order. -/
def processLoop (outcome : Str → VarOutcome) : List Str → List (Str × Str) × List Str
  | [] => ([], [])
  | v :: rest =>
    let tail := processLoop outcome rest
    match outcome v with
    | VarOutcome.made p => ((v, p) :: tail.1, tail.2)
    | VarOutcome.cameBackNone =>
        (tail.1, (("Failed to process variable: ").toList ++ v) :: tail.2)
    | VarOutcome.raisedError m =>
        (tail.1, (("Error processing ").toList ++ v ++ (": ").toList ++ m) :: tail.2)

/-
Tile Slicer, SRS repair: fix_srs_if_needed, generate_tiles.py lines 51-120.
-/

/-- The spatial reference of an opened raster: its optional authority name
and authority code, as read by GetAuthorityName and GetAuthorityCode. -/
structure SpatialRef where
  authName : Option Str
  authCode : Option Str
deriving DecidableEq

/-- A raster file as fix_srs_if_needed inspects it: the projection WKT text
(empty when the file has none), the optional spatial reference object, and
the pixel values. -/
structure Raster where
  srsWkt : Str
  spatialRef : Option SpatialRef
  pixels : List Int
deriving DecidableEq

/-- The unknown-engineering-datum marker tested against the WKT text. -/
def tokUnknownDatum : Str := ("Unknown engineering datum").toList

/-- The engineering-CRS marker tested against the WKT text. -/
def tokEngcrs : Str := ("ENGCRS").toList

/-- The expected Web Mercator authority code. -/
def tokMercatorCode : Str := ("3857").toList

/-- needs_fix of fix_srs_if_needed (generate_tiles.py lines 76-94): a missing
spatial reference, an unknown-engineering-datum marker in the WKT, or an
authority code absent, empty or different from 3857. -/
def srsNeedsFix (r : Raster) : Bool :=
  match r.spatialRef with
  | some sref =>
    if containsSub tokUnknownDatum r.srsWkt
        || containsSub tokEngcrs r.srsWkt then true
    else
      match sref.authCode with
      | none => true
      | some c => if c = [] then true else if c = tokMercatorCode then false else true
  | none => true

/-- The corrected copy written by gdal.Translate with outputSRS EPSG:3857
(generate_tiles.py lines 102-110): the spatial reference metadata is
rewritten and the pixel values are copied unchanged, the documented behavior
of a translate that sets only an output SRS. -/
def translateAssignSrs (r : Raster) : Raster :=
  { srsWkt := ("EPSG:3857").toList
    spatialRef := some { authName := some ("EPSG").toList, authCode := some ("3857").toList }
    pixels := r.pixels }

/-- fix_srs_if_needed (generate_tiles.py lines 51-120): when the spatial
reference needs fixing, a corrected copy is written to a temporary path and
returned (the boolean records that a copy was produced); otherwise the
original raster is returned unchanged. -/
def fixSrsIfNeeded (r : Raster) : Raster × Bool :=
  if srsNeedsFix r then (translateAssignSrs r, true) else (r, false)

/-
Tile Slicer, organization: organize_tile_structure, generate_tiles.py lines
383-432.
-/

/-- One entry of the scratch tile directory, as iterdir lists it. -/
structure DirEntry where
  name : Str
  isDir : Bool
deriving DecidableEq

/-- Whether organize_tile_structure moves an entry (generate_tiles.py line
417): it is a directory and its name is a nonempty digit string. -/
def movesZoom (e : DirEntry) : Bool :=
  e.isDir && !e.name.isEmpty && e.name.all Char.isDigit

/-- Remove every occurrence of a name from a list of names (the rmtree of an
existing destination before the move). -/
def removeName (a : Str) : List Str → List Str
  | [] => []
  | n :: rest => if n = a then removeName a rest else n :: removeName a rest

/-- Remove every occurrence of an entry from a directory listing. -/
def removeEntry (a : DirEntry) : List DirEntry → List DirEntry
  | [] => []
  | d :: rest => if d = a then removeEntry a rest else d :: removeEntry a rest

/-- An observable state during organize_tile_structure: the zoom directories
present under the organized published path, and the contents of the scratch
directory (none once the scratch directory has been removed). -/
structure OrgState where
  published : List Str
  scratch : Option (List DirEntry)
deriving DecidableEq

/-- One iteration of the move loop of organize_tile_structure
(generate_tiles.py lines 416-426): a qualifying zoom directory replaces any
existing destination of the same name under the published path and leaves
the scratch directory; other entries are left in place. -/
def orgStep (s : OrgState) (e : DirEntry) : OrgState :=
  if movesZoom e then
    { published := removeName e.name s.published ++ [e.name]
      scratch := s.scratch.map (removeEntry e) }
  else s

/-- The successive observable states of the move loop, one state after each
iteration, ending with the state after the scratch directory is removed
(generate_tiles.py lines 429-430). -/
def organizeStatesAux (s : OrgState) : List DirEntry → List OrgState
  | [] => [{ s with scratch := none }]
  | e :: rest =>
    let s2 := orgStep s e
    s2 :: organizeStatesAux s2 rest

/-- All observable states of organize_tile_structure on a scratch directory
with the given entries, starting from an empty published path. -/
def organizeStates (entries : List DirEntry) : List OrgState :=
  let s0 : OrgState := { published := [], scratch := some entries }
  s0 :: organizeStatesAux s0 entries

/-
Restricted evaluation: the eval call of apply_conversion,
config_manager.py lines 150-151.
-/

/-- The Python runtime values reachable from the eval call, modelled far
enough to evaluate the formulas of interest: numbers, tuples, type objects
named by their qualified name, lists, dictionaries, and the bound method
returned by attribute access on a type. -/
inductive PyVal where
  | pyNum : ℚ → PyVal
  | pyTuple : List PyVal → PyVal
  | pyType : Str → PyVal
  | pyList : List PyVal → PyVal
  | pyDict : List (Str × PyVal) → PyVal
  | pyMethod : Str → PyVal

/-- The name of the class of a value, as the CPython attribute access
obj.__class__ resolves it. -/
def classOf : PyVal → Str
  | PyVal.pyNum _ => ("float").toList
  | PyVal.pyTuple _ => ("tuple").toList
  | PyVal.pyType _ => ("type").toList
  | PyVal.pyList _ => ("list").toList
  | PyVal.pyDict _ => ("dict").toList
  | PyVal.pyMethod _ => ("builtin_function_or_method").toList

/-- A representative slice of the CPython list object.__subclasses__(): the
real list holds every loaded subclass of object, among them os._wrap_close,
whose function attributes expose the os module and its side effects. -/
def objectSubclasses : PyVal :=
  PyVal.pyList [PyVal.pyType ("os._wrap_close").toList]

/-- The CPython attribute accesses needed by the formulas of interest:
__class__ on any value, __base__ on the builtin types (object for the types
modelled here, with none for object itself, whose base is None), and
__subclasses__ on the type object. -/
def pyGetAttr (o : PyVal) (a : Str) : Option PyVal :=
  if a = ("__class__").toList then some (PyVal.pyType (classOf o))
  else if a = ("__base__").toList then
    match o with
    | PyVal.pyType t => if t = ("object").toList then none else some (PyVal.pyType ("object").toList)
    | _ => none
  else if a = ("__subclasses__").toList then
    match o with
    | PyVal.pyType t =>
        if t = ("object").toList then some (PyVal.pyMethod ("object.__subclasses__").toList)
        else none
    | _ => none
  else none

/-- The expressions of the formula language as eval parses them: an
identifier, a numeric literal, the empty tuple literal, an attribute access,
and a call with no arguments. -/
inductive PyExpr where
  | nameRef : Str → PyExpr
  | litNum : ℚ → PyExpr
  | litUnit : PyExpr
  | attrGet : PyExpr → Str → PyExpr
  | callNil : PyExpr → PyExpr

/-- The globals dictionary the code passes to eval (config_manager.py line
151): exactly the identifier value bound to the input, and an empty
__builtins__ dictionary. -/
def evalGlobals (v : ℚ) : List (Str × PyVal) :=
  [(("value").toList, PyVal.pyNum v), (("__builtins__").toList, PyVal.pyDict [])]

/-- The CPython evaluation of a formula under the restricted globals: a bare
identifier resolves only through the given globals (the empty __builtins__
dictionary supplies no fallback names), while attribute access and calls
follow the object graph without restriction. -/
def pyEvalExpr (g : List (Str × PyVal)) : PyExpr → Option PyVal
  | PyExpr.nameRef s => List.lookup s g
  | PyExpr.litNum q => some (PyVal.pyNum q)
  | PyExpr.litUnit => some (PyVal.pyTuple [])
  | PyExpr.attrGet e a => (pyEvalExpr g e).bind (fun o => pyGetAttr o a)
  | PyExpr.callNil e =>
    (pyEvalExpr g e).bind (fun o =>
      match o with
      | PyVal.pyMethod m =>
          if m = ("object.__subclasses__").toList then some objectSubclasses else none
      | _ => none)

/-- The formula ().__class__.__base__.__subclasses__() as a configuration
file can supply it to apply_conversion. -/
def escapeFormula : PyExpr :=
  PyExpr.callNil
    (PyExpr.attrGet
      (PyExpr.attrGet
        (PyExpr.attrGet PyExpr.litUnit ("__class__").toList)
        ("__base__").toList)
      ("__subclasses__").toList)

/-
Concrete inputs used by witnesses and counterexamples.
-/

/-- The kelvin_to_celsius formula value - 273.15 from the catalog file. -/
def kelvinToCelsiusFormula : ConvExpr :=
  ConvExpr.sub ConvExpr.valueVar (ConvExpr.num (27315 / 100))

/-- A minimal catalog defining only the kelvin_to_celsius conversion. -/
def cfgConversions : WeatherConfig :=
  { hasModel := true
    hasProduct := true
    variablesKey := some []
    colorRamps := []
    conversions := [(tokKelvinToCelsius, some kelvinToCelsiusFormula)] }

/-- A one-sample grid still tagged with Kelvin units. -/
def kelvinGrid : DataArray :=
  { values := [300], nodata := none, gribUnit := ("[K]").toList }

/-- A one-sample grid already tagged with Celsius units. -/
def celsiusGrid : DataArray :=
  { values := [0], nodata := none, gribUnit := ("[C]").toList }

/-- Two bands with the TMP element: first an entire-atmosphere band, then the
two-meter height band. -/
def demoBands : List GribBand :=
  [ { desc := ("0[-] EATM (Entire atmosphere)").toList
      element := ("TMP").toList
      shortName := ("0-EATM").toList }
  , { desc := ("2[m] HTGL (Specified height above ground)").toList
      element := ("TMP").toList
      shortName := ("2-HTGL").toList } ]

/-- A catalog variable entry that references the undefined color ramp
temperature and the defined conversion kelvin_to_celsius. -/
def entryT2m : VarEntry :=
  { grib_search := some ("TMP:2 m").toList
    display_name := some ("2m Temperature").toList
    units_source := some ("K").toList
    units_display := some ("C").toList
    color_ramp := some ("temperature").toList
    conversion := some tokKelvinToCelsius
    enabled := some true
    priority := some 1 }

/-- A catalog that is well formed except that its one variable references the
undefined color ramp temperature. -/
def cfgUndefRamp : WeatherConfig :=
  { hasModel := true
    hasProduct := true
    variablesKey := some [(("temperature_2m").toList, entryT2m)]
    colorRamps := []
    conversions := [(tokKelvinToCelsius, some kelvinToCelsiusFormula)] }

/-- A variable entry lacking the enabled key. -/
def entryNoEnabledKey : VarEntry :=
  { grib_search := some ("UGRD:10 m").toList
    display_name := some ("Wind U").toList
    units_source := some ("m/s").toList
    units_display := some ("m/s").toList
    color_ramp := none
    conversion := none
    enabled := none
    priority := some 2 }

/-- A catalog with one enabled variable and one variable lacking the enabled
key. -/
def cfgEnabledDemo : WeatherConfig :=
  { hasModel := true
    hasProduct := true
    variablesKey := some
      [ (("temperature_2m").toList, entryT2m)
      , (("wind_u_10m").toList, entryNoEnabledKey) ]
    colorRamps := [("temperature").toList]
    conversions := [(tokKelvinToCelsius, some kelvinToCelsiusFormula)] }

/-- A colored raster whose WKT carries the engineering-CRS marker, as
gdaldem color-relief sometimes emits. -/
def rasterEngDatum : Raster :=
  { srsWkt := ("ENGCRS[unknown]").toList
    spatialRef := some { authName := none, authCode := none }
    pixels := [7, 9] }

/-- A scratch tile directory holding the two zoom directories 0 and 1. -/
def demoEntries : List DirEntry :=
  [ { name := ("0").toList, isDir := true }
  , { name := ("1").toList, isDir := true } ]

/-- Three variables of a batch run. -/
def demoVars : List Str :=
  [("temperature_2m").toList, ("wind_u_10m").toList, ("reflectivity").toList]

/-- A batch outcome: the first variable produces a file, the second returns
None, the third raises. -/
def demoOutcome : Str → VarOutcome :=
  fun v =>
    if v = ("temperature_2m").toList then VarOutcome.made ("temperature_2m_hrrr.tif").toList
    else if v = ("reflectivity").toList then VarOutcome.raisedError ("boom").toList
    else VarOutcome.cameBackNone

/-
Helper lemmas.
-/

/-- A string is an initial segment of itself followed by anything. -/
theorem leadsWith_self_append (x b : Str) : leadsWith x (x ++ b) = true := by
  induction x with
  | nil => rfl
  | cons c cs ih => simp [leadsWith, ih]

/-- The substring test succeeds on the leading occurrence. -/
theorem containsSub_self_append (x b : Str) : containsSub x (x ++ b) = true := by
  cases x with
  | nil =>
    cases b with
    | nil => rfl
    | cons c t => simp [containsSub, leadsWith]
  | cons c cs =>
    have hsplit : containsSub (c :: cs) ((c :: cs) ++ b)
        = (leadsWith (c :: cs) ((c :: cs) ++ b) || containsSub (c :: cs) (cs ++ b)) := rfl
    rw [hsplit, leadsWith_self_append]
    rfl

/-- The substring test succeeds on an exhibited occurrence. -/
theorem containsSub_append_middle (a x b : Str) :
    containsSub x (a ++ (x ++ b)) = true := by
  induction a with
  | nil => simpa using containsSub_self_append x b
  | cons c cs ih =>
    have hsplit : containsSub x ((c :: cs) ++ (x ++ b))
        = (leadsWith x (c :: (cs ++ (x ++ b))) || containsSub x (cs ++ (x ++ b))) := rfl
    rw [hsplit, ih]
    simp

/-- A nonempty needle is not a substring of the empty string. -/
theorem containsSub_nil (c : Char) (cs : Str) :
    containsSub (c :: cs) [] = false := rfl

/-
Claim C2 - Band Resolver and numeric meter levels.
-/

/-- The band index returned by the loop is at least the starting index. -/
theorem findLoop_ge (elem : Str) (lvl : Option Str) :
    ∀ (bands : List GribBand) (j i : Nat),
      findLoop elem lvl j bands = some i → j ≤ i := by
  intro bands
  induction bands with
  | nil => intro j i h; cases lvl <;> simp [findLoop] at h
  | cons b rest ih =>
    intro j i h
    cases lvl with
    | none =>
      simp only [findLoop] at h
      by_cases he : upperStr elem = upperStr b.element
      · rw [if_pos he] at h; injection h with h2; omega
      · rw [if_neg he] at h; have := ih (j + 1) i h; omega
    | some l =>
      simp only [findLoop] at h
      by_cases he : upperStr elem = upperStr b.element
      · rw [if_pos he] at h
        by_cases hl : l = []
        · rw [if_pos hl] at h; injection h with h2; omega
        · rw [if_neg hl] at h
          by_cases hm : bandMatchesLevel l b = true
          · rw [if_pos hm] at h; injection h with h2; omega
          · rw [if_neg hm] at h; have := ih (j + 1) i h; omega
      · rw [if_neg he] at h; have := ih (j + 1) i h; omega

/-- A band accepted under a level token that triggers only the numeric-meter
branch carries the height-above-ground tag in its short name or the bracketed
height in its description. -/
theorem bandMatchesLevel_meter (lvl nstr : Str) (b : GribBand)
    (h1 : containsSub tokEntireAtmosphere (lowerStr lvl) = false)
    (h2 : containsSub tokEatm (lowerStr lvl) = false)
    (h3 : containsSub tokSurface (lowerStr lvl) = false)
    (h4 : containsSub tokSfc (lowerStr lvl) = false)
    (h5 : (containsSub tokMeterSpace (lowerStr lvl)
            || containsSub tokMeterWord (lowerStr lvl)) = true)
    (hn : extractMeterNum (lowerStr lvl) = some nstr)
    (hm : bandMatchesLevel lvl b = true) :
    containsSub (nstr ++ tokHtgl) (lowerStr b.shortName) = true ∨
    containsSub (nstr ++ tokBracketM) (lowerStr b.desc) = true := by
  simp only [bandMatchesLevel] at hm
  rw [h1, h2, h3, h4, h5, hn] at hm
  simpa using hm

/-- For a level token that triggers only the numeric-meter branch, the loop
returns a band only when that band carries the height-above-ground tag in its
short name or the bracketed height in its description. -/
theorem findLoop_meter (elem lvl nstr : Str)
    (h1 : containsSub tokEntireAtmosphere (lowerStr lvl) = false)
    (h2 : containsSub tokEatm (lowerStr lvl) = false)
    (h3 : containsSub tokSurface (lowerStr lvl) = false)
    (h4 : containsSub tokSfc (lowerStr lvl) = false)
    (h5 : (containsSub tokMeterSpace (lowerStr lvl)
            || containsSub tokMeterWord (lowerStr lvl)) = true)
    (hn : extractMeterNum (lowerStr lvl) = some nstr) :
    ∀ (bands : List GribBand) (j i : Nat),
      findLoop elem (some lvl) j bands = some i →
      ∃ b, listNth bands (i - j) = some b ∧
        (containsSub (nstr ++ tokHtgl) (lowerStr b.shortName) = true ∨
         containsSub (nstr ++ tokBracketM) (lowerStr b.desc) = true) := by
  have hlv : lvl ≠ [] := by
    intro hl
    rw [hl] at h5
    exact absurd h5 (by decide)
  intro bands
  induction bands with
  | nil => intro j i h; simp [findLoop] at h
  | cons b rest ih =>
    intro j i h
    simp only [findLoop] at h
    by_cases he : upperStr elem = upperStr b.element
    · rw [if_pos he, if_neg hlv] at h
      by_cases hm : bandMatchesLevel lvl b = true
      · rw [if_pos hm] at h
        injection h with hji0
        have hji : i - j = 0 := by omega
        exact ⟨b, by rw [hji]; rfl,
          bandMatchesLevel_meter lvl nstr b h1 h2 h3 h4 h5 hn hm⟩
      · rw [if_neg hm] at h
        obtain ⟨b2, hb2, hp⟩ := ih (j + 1) i h
        have hge := findLoop_ge elem (some lvl) rest (j + 1) i h
        refine ⟨b2, ?_, hp⟩
        have hstep : i - j = (i - (j + 1)) + 1 := by omega
        rw [hstep]
        exact hb2
    · rw [if_neg he] at h
      obtain ⟨b2, hb2, hp⟩ := ih (j + 1) i h
      have hge := findLoop_ge elem (some lvl) rest (j + 1) i h
      refine ⟨b2, ?_, hp⟩
      have hstep : i - j = (i - (j + 1)) + 1 := by omega
      rw [hstep]
      exact hb2

/-- Claim C2: for a search pattern whose level token is a numeric height with
a meter unit, find_band_by_search_string returns a band only when that band
carries the extracted height with the height-above-ground tag in its
GRIB_SHORT_NAME or the bracketed height in its description; in particular it
never returns a band, such as an entire-atmosphere band, that carries
neither, because the entire-atmosphere branch is tested before the meter
branch and the meter branch requires the digit-adjacent unit token. -/
theorem findBand_meter_requires_height_tag
    (bands : List GribBand) (search elem lvl nstr : Str) (i : Nat)
    (hparse : parseSearch search = (elem, some lvl))
    (h1 : containsSub tokEntireAtmosphere (lowerStr lvl) = false)
    (h2 : containsSub tokEatm (lowerStr lvl) = false)
    (h3 : containsSub tokSurface (lowerStr lvl) = false)
    (h4 : containsSub tokSfc (lowerStr lvl) = false)
    (h5 : (containsSub tokMeterSpace (lowerStr lvl)
            || containsSub tokMeterWord (lowerStr lvl)) = true)
    (hn : extractMeterNum (lowerStr lvl) = some nstr)
    (hfind : findBandBySearchString bands search = some i) :
    ∃ b, listNth bands (i - 1) = some b ∧
      (containsSub (nstr ++ tokHtgl) (lowerStr b.shortName) = true ∨
       containsSub (nstr ++ tokBracketM) (lowerStr b.desc) = true) := by
  have h : findLoop elem (some lvl) 1 bands = some i := by
    simpa [findBandBySearchString, hparse] using hfind
  exact findLoop_meter elem lvl nstr h1 h2 h3 h4 h5 hn bands 1 i h

/-- Witness for C2: on a file whose first TMP band is the entire-atmosphere
band and whose second is the two-meter band, the pattern TMP:2 m resolves to
band 2, and the resolved band carries the 2-htgl tag or the 2[m]
description. -/
theorem findBand_meter_requires_height_tag_witness :
    findBandBySearchString demoBands (("TMP:2 m").toList) = some 2 ∧
    ∃ b, listNth demoBands (2 - 1) = some b ∧
      (containsSub ((("2").toList) ++ tokHtgl) (lowerStr b.shortName) = true ∨
       containsSub ((("2").toList) ++ tokBracketM) (lowerStr b.desc) = true) :=
  ⟨by decide,
   findBand_meter_requires_height_tag demoBands (("TMP:2 m").toList) (("TMP").toList)
     (("2 m").toList) (("2").toList) 2 (by decide) (by decide) (by decide) (by decide)
     (by decide) (by decide) (by decide) (by decide)⟩

/-
Claim C1 - unit conversion idempotence.
-/

/-- One application of the kelvin_to_celsius conversion on a one-sample grid
tagged with Kelvin units subtracts 273.15 from the sample and keeps the
Kelvin tag. -/
theorem applyUnitConversion_kelvin_step (v : ℚ) :
    applyUnitConversion
        { values := [v], nodata := none, gribUnit := ("[K]").toList }
        (some tokKelvinToCelsius) cfgConversions
      = some { values := [v - 27315 / 100], nodata := none, gribUnit := ("[K]").toList } := by
  have hne : (tokKelvinToCelsius = ([] : Str)) = False := eq_false (by decide)
  have hKF : (tokKelvinToCelsius = tokKelvinToFahrenheit) = False := eq_false (by decide)
  have hC : containsSub tokCelsiusTag (("[K]").toList) = false := by decide
  have hF : containsSub tokFahrenheitTag (("[K]").toList) = false := by decide
  simp at hC hF
  simp [applyUnitConversion, hne, hKF, hC, hF, validSample, collectSome, applyConversion,
    cfgConversions, List.lookup, evalConv, kelvinToCelsiusFormula]

/-- Counterexample to C1 as stated: on a grid still tagged with Kelvin units,
applying the kelvin_to_celsius conversion twice subtracts 273.15 twice,
because the conversion never rewrites the GRIB_UNIT attribute; the double
application differs from the single one, so apply_unit_conversion is not
idempotent for every grid and conversion name. -/
theorem apply_unit_conversion_not_idempotent :
    (applyUnitConversion kelvinGrid (some tokKelvinToCelsius) cfgConversions).bind
        (fun d => applyUnitConversion d (some tokKelvinToCelsius) cfgConversions)
      ≠ applyUnitConversion kelvinGrid (some tokKelvinToCelsius) cfgConversions := by
  have h1 : applyUnitConversion kelvinGrid (some tokKelvinToCelsius) cfgConversions
      = some { values := [(300 : ℚ) - 27315 / 100], nodata := none,
               gribUnit := ("[K]").toList } :=
    applyUnitConversion_kelvin_step 300
  rw [h1]
  intro heq
  have heq2 : applyUnitConversion
      { values := [(300 : ℚ) - 27315 / 100], nodata := none, gribUnit := ("[K]").toList }
      (some tokKelvinToCelsius) cfgConversions
      = some { values := [(300 : ℚ) - 27315 / 100], nodata := none,
               gribUnit := ("[K]").toList } := heq
  rw [applyUnitConversion_kelvin_step ((300 : ℚ) - 27315 / 100)] at heq2
  simp at heq2

/-- Claim C1 (amended): converting a grid whose GRIB_UNIT already tags the
target units is a no-op, hence idempotent there: with a Celsius tag present,
apply_unit_conversion under kelvin_to_celsius returns the grid unchanged and
a second application yields output identical to the first. -/
theorem apply_unit_conversion_noop_when_target_tagged
    (da : DataArray) (cfg : WeatherConfig)
    (h : containsSub tokCelsiusTag da.gribUnit = true) :
    applyUnitConversion da (some tokKelvinToCelsius) cfg = some da ∧
    (applyUnitConversion da (some tokKelvinToCelsius) cfg).bind
        (fun d => applyUnitConversion d (some tokKelvinToCelsius) cfg)
      = applyUnitConversion da (some tokKelvinToCelsius) cfg := by
  have hne : (tokKelvinToCelsius = ([] : Str)) = False := eq_false (by decide)
  have h1 : applyUnitConversion da (some tokKelvinToCelsius) cfg = some da := by
    simp [applyUnitConversion, hne, h]
  refine ⟨h1, ?_⟩
  rw [h1]
  exact h1

/-- Witness for the amended C1 on a concrete Celsius-tagged grid. -/
theorem apply_unit_conversion_noop_when_target_tagged_witness :
    applyUnitConversion celsiusGrid (some tokKelvinToCelsius) cfgConversions
      = some celsiusGrid :=
  (apply_unit_conversion_noop_when_target_tagged celsiusGrid cfgConversions (by decide)).1

/-
Claim C3 - COG creation and the final output path.
-/

/-- Counterexample to C3 as stated: the final COG is produced by a translate
that writes directly at the final output path, not by a rename of the side
file, and the except handler removes only the side file; so a failure while
that translate runs leaves a half-written file at the final path. -/
theorem create_cog_translate_failure_leaves_partial_final :
    (createCogRun (some CogFailure.duringTranslate)).1.finalPath = FileContent.halfWritten ∧
    (createCogRun (some CogFailure.duringTranslate)).2 = false := by
  decide

/-- Claim C3 (amended): create_cog writes the tiled raster and builds
overviews at a side path, and nothing is written at the final path until both
have completed; a failure during the tiled write or the overview build leaves
no file, partial or otherwise, at the final path and removes the side file.
The finalization, however, is a direct COG translation to the final path
rather than a rename, so only failures outside that translation carry the
no-partial-file guarantee. -/
theorem create_cog_no_partial_final_outside_translate (f : Option CogFailure)
    (h : f ≠ some CogFailure.duringTranslate) :
    (createCogRun f).1.finalPath ≠ FileContent.halfWritten ∧
    (createCogRun f).1.sidePath = FileContent.absent := by
  cases f with
  | none => decide
  | some c =>
    cases c with
    | duringTiledWrite => decide
    | duringOverviews => decide
    | duringTranslate => exact absurd rfl h

/-- Witness for the amended C3 at a failure during the overview build. -/
theorem create_cog_no_partial_final_outside_translate_witness :
    (createCogRun (some CogFailure.duringOverviews)).1.finalPath ≠ FileContent.halfWritten ∧
    (createCogRun (some CogFailure.duringOverviews)).1.sidePath = FileContent.absent :=
  create_cog_no_partial_final_outside_translate (some CogFailure.duringOverviews) (by decide)

/-
Claim C5 - temporary-file cleanup of the reprojection fallback.
-/

/-- Claim C5: whenever the fallback path of reproject_to_web_mercator runs,
both temporary files it creates are deleted before the function returns on
success and before it re-raises on a failure at any of the three steps of the
inner try block - no temporary file survives the call on any path. -/
theorem fallback_reproject_no_temp_survives (f : Option WarpFailure) :
    (fallbackReproject f).1.srcOnDisk = false ∧
    (fallbackReproject f).1.dstOnDisk = false := by
  cases f with
  | none => decide
  | some w => cases w <;> decide

/-- Witness for C5 at a failure during the external warp invocation. -/
theorem fallback_reproject_no_temp_survives_witness :
    (fallbackReproject (some WarpFailure.duringWarp)).1.srcOnDisk = false ∧
    (fallbackReproject (some WarpFailure.duringWarp)).1.dstOnDisk = false :=
  fallback_reproject_no_temp_survives (some WarpFailure.duringWarp)

/-
Claim C6 - SRS repair exactness and pixel preservation.
-/

/-- The needs-fix test holds exactly for a missing spatial reference, a
datum marker in the WKT, or an authority code other than 3857. -/
theorem srsNeedsFix_iff (r : Raster) :
    srsNeedsFix r = true ↔
      (r.spatialRef = none ∨
       containsSub tokUnknownDatum r.srsWkt = true ∨
       containsSub tokEngcrs r.srsWkt = true ∨
       (∃ s, r.spatialRef = some s ∧ s.authCode ≠ some tokMercatorCode)) := by
  cases hsr : r.spatialRef with
  | none => simp [srsNeedsFix, hsr]
  | some sref =>
    cases hu : containsSub tokUnknownDatum r.srsWkt with
    | true => simp [srsNeedsFix, hsr, hu]
    | false =>
      cases he : containsSub tokEngcrs r.srsWkt with
      | true => simp [srsNeedsFix, hsr, hu, he]
      | false =>
        cases hc : sref.authCode with
        | none => simp [srsNeedsFix, hsr, hu, he, hc]
        | some c =>
          by_cases hc0 : c = []
          · simp [srsNeedsFix, hsr, hu, he, hc, hc0]
            decide
          · by_cases h3857 : c = tokMercatorCode
            · simp [srsNeedsFix, hsr, hu, he, hc, hc0, h3857]
              decide
            · simp [srsNeedsFix, hsr, hu, he, hc, hc0, h3857]

/-- Claim C6: fix_srs_if_needed rewrites a corrected copy exactly when the
spatial reference is missing, carries the unknown-engineering-datum marker,
or has an authority code different from 3857; the result always carries the
same pixel values as the input, and when no copy is produced the original
raster is returned unchanged. -/
theorem fix_srs_repair_exact_and_pixel_preserving (r : Raster) :
    ((fixSrsIfNeeded r).2 = true ↔
      (r.spatialRef = none ∨
       containsSub tokUnknownDatum r.srsWkt = true ∨
       containsSub tokEngcrs r.srsWkt = true ∨
       (∃ s, r.spatialRef = some s ∧ s.authCode ≠ some tokMercatorCode))) ∧
    (fixSrsIfNeeded r).1.pixels = r.pixels ∧
    ((fixSrsIfNeeded r).2 = false → (fixSrsIfNeeded r).1 = r) := by
  refine ⟨?_, ?_, ?_⟩
  · rw [← srsNeedsFix_iff]
    unfold fixSrsIfNeeded
    by_cases h : srsNeedsFix r = true
    · simp [h]
    · simp [h]
  · unfold fixSrsIfNeeded
    by_cases h : srsNeedsFix r = true
    · simp [h, translateAssignSrs]
    · simp [h]
  · unfold fixSrsIfNeeded
    by_cases h : srsNeedsFix r = true
    · simp [h]
    · simp [h]

/-- Witness for C6 on a raster carrying the engineering-CRS marker: a
corrected copy is produced and its pixel values equal the original ones. -/
theorem fix_srs_repair_exact_and_pixel_preserving_witness :
    (fixSrsIfNeeded rasterEngDatum).2 = true ∧
    (fixSrsIfNeeded rasterEngDatum).1.pixels = rasterEngDatum.pixels := by
  have h := fix_srs_repair_exact_and_pixel_preserving rasterEngDatum
  exact ⟨h.1.mpr (Or.inr (Or.inr (Or.inl (by decide)))), h.2.1⟩

/-
Claim C7 - tile organization and the published tree.
-/

/-- A name absent from a list is left untouched by removeName. -/
theorem removeName_of_not_mem (a : Str) :
    ∀ l : List Str, a ∉ l → removeName a l = l := by
  intro l
  induction l with
  | nil => intro _; rfl
  | cons n rest ih =>
    intro h
    have hna : ¬ n = a := by
      intro he
      exact h (by rw [he]; exact List.mem_cons_self a rest)
    have hrest : a ∉ rest := fun hm => h (List.mem_cons_of_mem n hm)
    simp [removeName, hna, ih hrest]

/-- The published directories after the move loop: the starting ones followed
by the digit-named directories of the scratch listing, when the listed names
are distinct and not already published. -/
theorem orgFold_published (es : List DirEntry) : ∀ s : OrgState,
    (es.map (fun e => e.name)).Nodup →
    (∀ e ∈ es, e.name ∉ s.published) →
    (es.foldl orgStep s).published
      = s.published ++ (es.filter movesZoom).map (fun e => e.name) := by
  induction es with
  | nil => intro s _ _; simp
  | cons e rest ih =>
    intro s hnd hnotin
    rw [List.map_cons] at hnd
    obtain ⟨hhead, htail⟩ := List.nodup_cons.mp hnd
    cases hm : movesZoom e with
    | false =>
      have hstep : orgStep s e = s := by simp [orgStep, hm]
      rw [List.foldl_cons, hstep,
        ih s htail (fun e2 he2 => hnotin e2 (List.mem_cons_of_mem e he2))]
      simp [List.filter_cons, hm]
    | true =>
      have hene : e.name ∉ s.published := hnotin e (List.mem_cons_self e rest)
      have hstep : orgStep s e
          = { published := s.published ++ [e.name]
              scratch := s.scratch.map (removeEntry e) } := by
        simp [orgStep, hm, removeName_of_not_mem e.name s.published hene]
      have hnotin2 : ∀ e2 ∈ rest,
          e2.name ∉ s.published ++ [e.name] := by
        intro e2 he2 hmem
        cases List.mem_append.mp hmem with
        | inl hl => exact hnotin e2 (List.mem_cons_of_mem e he2) hl
        | inr hr =>
          have : e2.name = e.name := by simpa using hr
          exact hhead (this ▸ List.mem_map_of_mem (fun d => d.name) he2)
      rw [List.foldl_cons, hstep, ih _ htail hnotin2]
      simp [List.filter_cons, hm]

/-- The trace of the move loop is never empty. -/
theorem organizeStatesAux_ne_nil (s : OrgState) (es : List DirEntry) :
    organizeStatesAux s es ≠ [] := by
  cases es <;> simp [organizeStatesAux]

/-- listLast skips the head of a list with a nonempty tail. -/
theorem listLast_cons_of_ne_nil {α : Type} (a : α) (l : List α) (h : l ≠ []) :
    listLast (a :: l) = listLast l := by
  cases l with
  | nil => exact absurd rfl h
  | cons b rest => rfl

/-- The last trace state is the fold of the loop steps with the scratch
directory removed. -/
theorem organizeStatesAux_last (es : List DirEntry) : ∀ s : OrgState,
    listLast (organizeStatesAux s es)
      = some { es.foldl orgStep s with scratch := none } := by
  induction es with
  | nil => intro s; rfl
  | cons e rest ih =>
    intro s
    rw [show organizeStatesAux s (e :: rest)
        = orgStep s e :: organizeStatesAux (orgStep s e) rest from rfl]
    rw [listLast_cons_of_ne_nil _ _ (organizeStatesAux_ne_nil _ _), ih (orgStep s e)]
    rfl

/-- Counterexample to C7 as stated: with two zoom directories in the scratch
listing, the loop moves them into the published path one at a time, so the
trace holds an observable intermediate state whose published tree contains
only one of the two zoom directories - neither empty nor complete. -/
theorem organize_partial_tree_observable :
    ¬ (∀ s ∈ organizeStates demoEntries,
        s.published = [] ∨
        s.published = (demoEntries.filter movesZoom).map (fun e => e.name)) := by
  decide

/-- Claim C7 (amended): organize_tile_structure moves the digit-named zoom
directories one at a time directly into the published path, so a reader can
observe a partially organized tree; once the function completes, the
published path holds exactly the digit-named zoom directories of the scratch
listing, in listing order, and the scratch directory has been removed. -/
theorem organize_final_tree_complete (entries : List DirEntry)
    (hnd : (entries.map (fun e => e.name)).Nodup) :
    listLast (organizeStates entries)
      = some { published := (entries.filter movesZoom).map (fun e => e.name)
               scratch := none } := by
  unfold organizeStates
  rw [listLast_cons_of_ne_nil _ _ (organizeStatesAux_ne_nil _ _),
    organizeStatesAux_last]
  have hpub : (entries.foldl orgStep { published := [], scratch := some entries }).published
      = (entries.filter movesZoom).map (fun e => e.name) := by
    have h := orgFold_published entries { published := [], scratch := some entries } hnd
      (fun e _ => by simp)
    simpa using h
  rw [show ({ entries.foldl orgStep { published := [], scratch := some entries } with
        scratch := none } : OrgState)
      = { published :=
            (entries.foldl orgStep { published := [], scratch := some entries }).published
          scratch := none } from rfl, hpub]

/-- Witness for the amended C7 on the two-directory scratch listing. -/
theorem organize_final_tree_complete_witness :
    listLast (organizeStates demoEntries)
      = some { published := (demoEntries.filter movesZoom).map (fun e => e.name)
               scratch := none } :=
  organize_final_tree_complete demoEntries (by decide)

/-
Claim C8 - batch processing with partial success.
-/

/-- The batch loop computed in closed form: the results are the variables
whose outcome is an output path, in order, and the log lines are the warning
and error lines of the failing variables, in order. -/
theorem processLoop_spec (outcome : Str → VarOutcome) :
    ∀ vars : List Str,
      processLoop outcome vars
        = (vars.filterMap (fun v =>
              match outcome v with
              | VarOutcome.made p => some (v, p)
              | _ => none),
           vars.filterMap (fun v =>
              match outcome v with
              | VarOutcome.made _ => none
              | VarOutcome.cameBackNone =>
                  some ((("Failed to process variable: ").toList ++ v))
              | VarOutcome.raisedError m =>
                  some ((("Error processing ").toList ++ v ++ (": ").toList ++ m)))) := by
  intro vars
  induction vars with
  | nil => rfl
  | cons v rest ih => cases ho : outcome v <;> simp [processLoop, ho, ih]

/-- Claim C8: a failure or exception while one variable is processed does not
abort the batch; the returned mapping holds exactly the variables whose
processing produced an output file, and every per-variable failure - a None
return or a raised exception - yields a log line naming that variable rather
than a propagated exception (the loop is total on every outcome
assignment). -/
theorem process_grib_file_partial_success (outcome : Str → VarOutcome)
    (vars : List Str) :
    (processLoop outcome vars).1
      = vars.filterMap (fun v =>
          match outcome v with
          | VarOutcome.made p => some (v, p)
          | _ => none) ∧
    (∀ v ∈ vars, outcome v = VarOutcome.cameBackNone →
      (("Failed to process variable: ").toList ++ v) ∈ (processLoop outcome vars).2) ∧
    (∀ v m, v ∈ vars → outcome v = VarOutcome.raisedError m →
      (("Error processing ").toList ++ v ++ (": ").toList ++ m)
        ∈ (processLoop outcome vars).2) := by
  have hs := processLoop_spec outcome vars
  refine ⟨by rw [hs], ?_, ?_⟩
  · intro v hv hvo
    rw [hs]
    exact List.mem_filterMap.mpr ⟨v, hv, by rw [hvo]⟩
  · intro v m hv hvo
    rw [hs]
    exact List.mem_filterMap.mpr ⟨v, hv, by rw [hvo]⟩

/-- Witness for C8 on a three-variable batch where one variable succeeds, one
returns None and one raises: the mapping holds exactly the successful
variable and the warning line naming the failed variable is logged. -/
theorem process_grib_file_partial_success_witness :
    (processLoop demoOutcome demoVars).1
      = [(("temperature_2m").toList, ("temperature_2m_hrrr.tif").toList)] ∧
    (("Failed to process variable: ").toList ++ ("wind_u_10m").toList)
      ∈ (processLoop demoOutcome demoVars).2 := by
  have h := process_grib_file_partial_success demoOutcome demoVars
  exact ⟨h.1.trans (by decide), h.2.1 (("wind_u_10m").toList) (by decide) (by decide)⟩

/-
Claim C9 - the restricted evaluation context of apply_conversion.
-/

/-- Claim C9 (code-bug evidence): under the globals the code passes to eval -
value bound to the input and an empty __builtins__ - a bare identifier other
than value resolves to nothing, yet the configuration formula
().__class__.__base__.__subclasses__() still evaluates successfully, reaching
the ambient list of all subclasses of object (from whose members the os
module and its side effects are reachable); so the evaluation is not confined
to the identifier value, contradicting the claimed restriction. -/
theorem apply_conversion_eval_escapes_restriction :
    pyEvalExpr (evalGlobals 0) escapeFormula = some objectSubclasses ∧
    pyEvalExpr (evalGlobals 0) (PyExpr.nameRef (("os").toList)) = none ∧
    pyEvalExpr (evalGlobals 0) (PyExpr.nameRef (("value").toList))
      = some (PyVal.pyNum 0) :=
  ⟨rfl, rfl, rfl⟩

/-
Claim C10 - enabledness defaults to false.
-/

/-- Membership in the enabled-variables filter. -/
theorem mem_getEnabledVariables (c : WeatherConfig) (p : Str × VarEntry) :
    p ∈ getEnabledVariables c ↔ (p ∈ variablesOf c ∧ p.2.enabled = some true) := by
  unfold getEnabledVariables
  rw [List.mem_filter]
  constructor
  · rintro ⟨h1, h2⟩
    refine ⟨h1, ?_⟩
    cases he : p.2.enabled with
    | none => rw [he] at h2; exact absurd h2 (by simp)
    | some b =>
      cases b with
      | true => rfl
      | false => rw [he] at h2; exact absurd h2 (by simp)
  · rintro ⟨h1, h2⟩
    exact ⟨h1, by rw [h2]⟩

/-- A successful collectSome draws every element from the input list. -/
theorem collectSome_mem {α β : Type} (f : α → Option β) :
    ∀ (l : List α) (ys : List β), collectSome f l = some ys →
      ∀ y ∈ ys, ∃ x ∈ l, f x = some y := by
  intro l
  induction l with
  | nil =>
    intro ys h y hy
    have h2 : ([] : List β) = ys := by
      have := h
      unfold collectSome at this
      injection this
    rw [← h2] at hy
    exact absurd hy (by simp)
  | cons x rest ih =>
    intro ys h y hy
    unfold collectSome at h
    cases hfx : f x with
    | none =>
      rw [hfx] at h
      cases hrest : collectSome f rest with
      | none => rw [hrest] at h; exact absurd h (by simp)
      | some ys0 => rw [hrest] at h; exact absurd h (by simp)
    | some y0 =>
      rw [hfx] at h
      cases hrest : collectSome f rest with
      | none => rw [hrest] at h; exact absurd h (by simp)
      | some ys0 =>
        rw [hrest] at h
        have hys : y0 :: ys0 = ys := by injection h
        rw [← hys] at hy
        cases List.mem_cons.mp hy with
        | inl hl => exact ⟨x, List.mem_cons_self x rest, by rw [hfx, hl]⟩
        | inr hr =>
          obtain ⟨x2, hx2, hfx2⟩ := ih ys0 hrest y hr
          exact ⟨x2, List.mem_cons_of_mem x hx2, hfx2⟩

/-- Claim C10: a variable lacking the enabled key, or whose enabled value is
false, is excluded from get_enabled_variables and from every priority filter;
every variable those functions return has enabled equal to true, and every
search string returned by get_grib_search_strings comes from an enabled
variable. -/
theorem enabled_defaults_to_false (c : WeatherConfig) :
    (∀ p ∈ getEnabledVariables c, p.2.enabled = some true) ∧
    (∀ pr : Option Int, ∀ p ∈ getVariablesByPriority c pr, p.2.enabled = some true) ∧
    (∀ p ∈ variablesOf c, p.2.enabled ≠ some true →
      p ∉ getEnabledVariables c ∧ ∀ pr : Option Int, p ∉ getVariablesByPriority c pr) ∧
    (∀ ss, getGribSearchStrings c = some ss →
      ∀ s ∈ ss, ∃ p ∈ getEnabledVariables c,
        p.2.grib_search = some s ∧ p.2.enabled = some true) := by
  have henb : ∀ pr : Option Int, ∀ p ∈ getVariablesByPriority c pr,
      p ∈ getEnabledVariables c := by
    intro pr p hp
    cases pr with
    | none => exact hp
    | some pl => exact (List.mem_filter.mp hp).1
  refine ⟨?_, ?_, ?_, ?_⟩
  · intro p hp
    exact ((mem_getEnabledVariables c p).mp hp).2
  · intro pr p hp
    exact ((mem_getEnabledVariables c p).mp (henb pr p hp)).2
  · intro p _ hne
    have hnotin : p ∉ getEnabledVariables c := by
      intro hmem
      exact hne ((mem_getEnabledVariables c p).mp hmem).2
    exact ⟨hnotin, fun pr hmem => hnotin (henb pr p hmem)⟩
  · intro ss hss s hs
    have hss2 : collectSome (fun p : Str × VarEntry => p.2.grib_search)
        (getEnabledVariables c) = some ss := hss
    obtain ⟨p, hp, hfp⟩ :=
      collectSome_mem (fun p : Str × VarEntry => p.2.grib_search)
        (getEnabledVariables c) ss hss2 s hs
    exact ⟨p, hp, hfp, ((mem_getEnabledVariables c p).mp hp).2⟩

/-- Witness for C10: in the demo catalog, the variable lacking the enabled
key is not among the enabled variables. -/
theorem enabled_defaults_to_false_witness :
    ((("wind_u_10m").toList, entryNoEnabledKey) ∉ getEnabledVariables cfgEnabledDemo) :=
  ((enabled_defaults_to_false cfgEnabledDemo).2.2.1
    ((("wind_u_10m").toList, entryNoEnabledKey)) (by decide) (by decide)).1

/-
Claim C4 - validation reports every issue in one pass without raising.
-/

/-- The per-variable issue collection distributes over list append. -/
theorem varIssuesList_append (c : WeatherConfig) (l1 l2 : List (Str × VarEntry)) :
    varIssuesList c (l1 ++ l2) = varIssuesList c l1 ++ varIssuesList c l2 := by
  induction l1 with
  | nil => rfl
  | cons p rest ih =>
    show perVarIssues c p ++ varIssuesList c (rest ++ l2)
        = (perVarIssues c p ++ varIssuesList c rest) ++ varIssuesList c l2
    rw [ih, List.append_assoc]

/-- A batch of issue-free variables contributes no issues. -/
theorem varIssuesList_nil_of_all (c : WeatherConfig) :
    ∀ l : List (Str × VarEntry), (∀ p ∈ l, perVarIssues c p = []) →
      varIssuesList c l = [] := by
  intro l
  induction l with
  | nil => intro _; rfl
  | cons p rest ih =>
    intro h
    show perVarIssues c p ++ varIssuesList c rest = []
    rw [h p (List.mem_cons_self p rest),
      ih (fun q hq => h q (List.mem_cons_of_mem p hq))]
    rfl

/-- Claim C4: validate is a total function of the loaded catalog - it never
raises - and collects every issue in one pass; on a catalog that is well
formed except for a single variable referencing an undefined color ramp, it
returns exactly one issue, and that issue names both the variable and the
ramp. -/
theorem validate_single_undefined_ramp (c : WeatherConfig)
    (pre post : List (Str × VarEntry)) (v r : Str) (ve : VarEntry)
    (hm : c.hasModel = true) (hp : c.hasProduct = true)
    (hv : c.variablesKey = some (pre ++ (v, ve) :: post))
    (hpre : ∀ p ∈ pre, perVarIssues c p = [])
    (hpost : ∀ p ∈ post, perVarIssues c p = [])
    (hfields : varRequiredFieldIssues v ve = [])
    (hramp : ve.color_ramp = some r)
    (hrne : r ≠ [])
    (hundef : r ∉ c.colorRamps)
    (hconv : convIssue c v ve = []) :
    validate c = [msgUndefRamp v r] ∧
    containsSub v (msgUndefRamp v r) = true ∧
    containsSub r (msgUndefRamp v r) = true := by
  have hvars : variablesOf c = pre ++ (v, ve) :: post := by
    simp [variablesOf, hv]
  have hkeys : requiredKeyIssues c = [] := by
    simp [requiredKeyIssues, hm, hp, hv]
  have hnonempty : ¬ (variablesOf c = []) := by
    rw [hvars]; cases pre <;> simp
  have hperv : perVarIssues c (v, ve) = [msgUndefRamp v r] := by
    simp [perVarIssues, hfields, hconv, rampIssue, hramp, hrne, hundef]
  have hlist : varIssuesList c (variablesOf c) = [msgUndefRamp v r] := by
    rw [hvars, varIssuesList_append, varIssuesList_nil_of_all c pre hpre]
    show [] ++ (perVarIssues c (v, ve) ++ varIssuesList c post) = _
    rw [varIssuesList_nil_of_all c post hpost, hperv]
    rfl
  refine ⟨?_, ?_, ?_⟩
  · unfold validate
    rw [hkeys, if_neg hnonempty, hlist]
    rfl
  · have hshape : msgUndefRamp v r
        = ((("Variable ").toList ++ [squote])
            ++ (v ++ ([squote] ++ (" references undefined color ramp: ").toList ++ r))) := by
      simp [msgUndefRamp, List.append_assoc]
    rw [hshape]
    exact containsSub_append_middle _ v _
  · have hshape : msgUndefRamp v r
        = ((("Variable ").toList ++ [squote] ++ v ++ [squote]
            ++ (" references undefined color ramp: ").toList) ++ (r ++ [])) := by
      simp [msgUndefRamp, List.append_assoc]
    rw [hshape]
    exact containsSub_append_middle _ r []

/-- Witness for C4 on a concrete catalog whose one variable references the
undefined color ramp temperature: validate returns exactly that one
message. -/
theorem validate_single_undefined_ramp_witness :
    validate cfgUndefRamp
      = [msgUndefRamp (("temperature_2m").toList) (("temperature").toList)] :=
  (validate_single_undefined_ramp cfgUndefRamp [] [] (("temperature_2m").toList)
    (("temperature").toList) entryT2m rfl rfl rfl (by simp) (by simp) (by decide) rfl
    (by decide) (by decide) (by decide)).1
